import Mathlib

/-!
Verification development for the `magnecto/tasks` record-keeping application
(`src/app.py`). The embedding models:

* the four SQLite tables (`projects`, `notes`, `resources`, `ideas`) as lists
  of records (`Store`), plus an `DB` type with optional tables used to model
  `CREATE TABLE IF NOT EXISTS` / `DROP TABLE` (for `init_db` and the
  destructive reset in `page_settings`);
* the cross-entity search `run_semanticish_search` including the per-kind
  column projections, the pandas row stringification
  (`" ".join([str(x).lower() for x in r.values])`), the substring mask, the
  kind tagging, the concatenation, and the conditional
  `sort_values(by=[c for c in ["updated_at","note_date"] if c in out.columns],
  ascending=False, na_position="last")` step;
* the dashboard guard `if q:` around the search box;
* `UPDATE projects ... WHERE id=?` from `page_projects`;
* `save_uploaded_file` path construction and the semicolon join of multiple
  uploaded resource files from `page_resources`.

Modelling conventions, faithful to the Python/pandas semantics in scope:
strings are sequences of code points (Lean `Char` = code point, same as
Python); `str.lower` is modelled as ASCII case folding (`charLower`), which
agrees with Python on every string occurring in this application's data and
claims. Cell stringification follows pandas' per-column dtype inference in
`pd.read_sql_query`: a text column is object-typed, so a cell is the string
itself and SQL `NULL` is Python `None`, stringifying to `"None"`; an integer
column with every value present is int64, cells stringifying in decimal; an
integer column mixing values and `NULL` is coerced to float64 for the whole
column, so present cells stringify as `"<n>.0"` and `NULL` cells as `"nan"`;
an integer column that is entirely `NULL` stays object-typed, each cell
stringifying as `"None"`. The only nullable integer columns in the search
projections are `resources.project_id` and `ideas.project_id`, and the
projections compute those columns' dtype from the whole table (`intCell`).
The float64 decimal rendering `"<n>.0"` is exact for `|n| < 2^53`, which
covers every id the `AUTOINCREMENT` store can reach. `sort_values` is
modelled as a stable insertion sort with the exact key (`updated_at`
descending, then `note_date` descending when that column exists, missing
values last): pandas uses a stable lexsort whenever more than one sort
column is present — i.e. whenever the notes table is nonempty — while for a
single sort column its default `quicksort` leaves the order of key-equal
rows unspecified, so the deterministic model is one admissible refinement
there, and tie-order (stability) properties are asserted only under the
multi-key hypothesis.
-/

namespace Karte

/-! ### Code-point string primitives (Python `str` semantics) -/

/-- Python `str.lower` on one character, restricted to ASCII letters. -/
def charLower (c : Char) : Char :=
  if c.toNat ≥ 65 ∧ c.toNat ≤ 90 then Char.ofNat (c.toNat + 32) else c

/-- Python `s.lower()`. -/
def lowerStr (s : String) : String := ⟨s.data.map charLower⟩

/-- Python `a.startswith`-free prefix test on code-point lists. -/
def isPrefixB : List Char → List Char → Bool
  | [], _ => true
  | _ :: _, [] => false
  | a :: as, b :: bs => a == b && isPrefixB as bs

/-- Python `needle in hay` substring containment on code-point lists. -/
def isInfixB (n : List Char) : List Char → Bool
  | [] => isPrefixB n []
  | c :: t => isPrefixB n (c :: t) || isInfixB n t

/-- Python `needle in hay` on strings. -/
def isSub (needle hay : String) : Bool := isInfixB needle.data hay.data

/-- Python `" ".join(l)`. -/
def joinSp : List String → String
  | [] => ""
  | [x] => x
  | x :: y :: t => x ++ " " ++ joinSp (y :: t)

/-- Python `";".join(l)`. -/
def joinSemi : List String → String
  | [] => ""
  | [x] => x
  | x :: y :: t => x ++ ";" ++ joinSemi (y :: t)

/-- Three-way code-point comparison; Python's `<`/`>` on `str`. -/
def ccmp : List Char → List Char → Ordering
  | [], [] => .eq
  | [], _ :: _ => .lt
  | _ :: _, [] => .gt
  | a :: as, b :: bs =>
    if a.toNat < b.toNat then .lt
    else if b.toNat < a.toNat then .gt
    else ccmp as bs

/-! ### Cell values of a `pd.read_sql_query` result row -/

/-- One cell of a loaded DataFrame row, carrying its column's inferred
dtype: an int64 integer, a float64 integer (`n.0`) or float64 `NaN` from a
mixed-null integer column, a text value, or a `None` cell of an
object-typed column. -/
inductive Value
  | vInt (n : Int)
  | vFloat (n : Int)
  | vNaN
  | vStr (s : String)
  | vNull
deriving DecidableEq

/-- Python `str(x)` on a cell: decimal for int64, `"<n>.0"` for a float64
integer, `"nan"` for float64 `NaN`, the string itself for text, and the
placeholder `"None"` for an object-column `None`. -/
def strOf : Value → String
  | .vInt n => toString n
  | .vFloat n => toString n ++ ".0"
  | .vNaN => "nan"
  | .vStr s => s
  | .vNull => "None"

/-- The contribution of one cell to the search haystack:
`str(x).lower()`. -/
def elemRep (v : Value) : String := lowerStr (strOf v)

/-- The haystack of one projected row:
`" ".join([str(x).lower() for x in r.values])`. -/
def haystack (vals : List Value) : String := joinSp (vals.map elemRep)

/-- The row mask of `run_semanticish_search`: the normalized query is a
substring of the row's haystack. `qn` is the already-lowered query. -/
def matchB (qn : String) (vals : List Value) : Bool := isSub qn (haystack vals)

/-- Lift a nullable text column to a cell. -/
def optS : Option String → Value
  | none => .vNull
  | some s => .vStr s

/-- A cell of a nullable integer column, rendered according to the dtype
pandas infers for the whole column: `hasNull` says some row of the table
has `NULL` here, `hasInt` that some row has a value. A mixed column is
float64 (`vFloat`/`vNaN`), an all-present column int64 (`vInt`), an
all-`NULL` column object (`vNull`). -/
def intCell (hasNull hasInt : Bool) : Option Int → Value
  | none => if hasInt then .vNaN else .vNull
  | some n => if hasNull then .vFloat n else .vInt n

/-! ### The four tables (schema of `init_db`) -/

/-- A row of the `projects` table. -/
structure Project where
  id : Int
  title : String
  client : Option String
  status : String
  priority : Option String
  owner : Option String
  start_date : Option String
  due_date : Option String
  description : Option String
  archived : Int
  created_at : String
  updated_at : String
deriving DecidableEq

/-- A row of the `notes` table. `progress_percent` is modelled as a
non-null integer: the application always writes `int(progress)`. -/
structure Note where
  id : Int
  project_id : Int
  note_date : String
  author : Option String
  content : String
  next_action : Option String
  progress_percent : Int
  created_at : String
  updated_at : String
deriving DecidableEq

/-- A row of the `resources` table. -/
structure SResource where
  id : Int
  project_id : Option Int
  title : Option String
  kind : Option String
  url : Option String
  local_path : Option String
  tags : Option String
  note : Option String
  created_at : String
  updated_at : String
deriving DecidableEq

/-- A row of the `ideas` table. `pinned` is the 0/1 integer column. -/
structure Idea where
  id : Int
  project_id : Option Int
  title : Option String
  url : Option String
  image_path : Option String
  note : Option String
  tags : Option String
  pinned : Int
  created_at : String
  updated_at : String
deriving DecidableEq

/-- The initialized database: the four tables, rows in rowid (insertion)
order, which is the order an unordered SQLite full-table scan returns. -/
structure Store where
  projects : List Project
  notes : List Note
  resources : List SResource
  ideas : List Idea
deriving DecidableEq

/-- `LEFT JOIN projects ON projects.id = <child>.project_id`, projecting
`projects.title AS project_title`. `id` is the primary key, so the first
match is the unique match; a `NULL` foreign key joins to nothing. -/
def joinTitle (s : Store) : Option Int → Value
  | none => .vNull
  | some pid =>
    match s.projects.find? (fun p => p.id == pid) with
    | some p => .vStr p.title
    | none => .vNull

/-! ### The per-kind search projections (the four SELECTs of
`run_semanticish_search`) -/

/-- `SELECT id, title, status, priority, owner, due_date, description,
updated_at FROM projects`, one row. -/
def projVals (p : Project) : List Value :=
  [.vInt p.id, .vStr p.title, .vStr p.status, optS p.priority, optS p.owner,
   optS p.due_date, optS p.description, .vStr p.updated_at]

/-- `SELECT notes.id, notes.project_id, notes.note_date, notes.content,
notes.next_action, notes.progress_percent, projects.title AS project_title
FROM notes LEFT JOIN projects ...`, one row. -/
def noteVals (s : Store) (n : Note) : List Value :=
  [.vInt n.id, .vInt n.project_id, .vStr n.note_date, .vStr n.content,
   optS n.next_action, .vInt n.progress_percent, joinTitle s (some n.project_id)]

/-- `SELECT resources.id, resources.project_id, resources.title,
resources.kind, resources.url, resources.local_path, resources.tags,
projects.title AS project_title FROM resources LEFT JOIN projects ...`. -/
def resVals (s : Store) (r : SResource) : List Value :=
  [.vInt r.id,
   intCell (s.resources.any (fun x => x.project_id.isNone))
     (s.resources.any (fun x => x.project_id.isSome)) r.project_id,
   optS r.title, optS r.kind, optS r.url,
   optS r.local_path, optS r.tags, joinTitle s r.project_id]

/-- `SELECT ideas.id, ideas.project_id, ideas.title, ideas.url,
ideas.image_path, ideas.note, ideas.tags, projects.title AS project_title,
ideas.pinned FROM ideas LEFT JOIN projects ...`. -/
def ideaVals (s : Store) (i : Idea) : List Value :=
  [.vInt i.id,
   intCell (s.ideas.any (fun x => x.project_id.isNone))
     (s.ideas.any (fun x => x.project_id.isSome)) i.project_id,
   optS i.title, optS i.url, optS i.image_path,
   optS i.note, optS i.tags, joinTitle s i.project_id, .vInt i.pinned]

/-! ### Search hits (rows of the merged union-of-schemas DataFrame) -/

/-- The `kind` tag column added to each surviving row. -/
inductive Kind
  | project
  | note
  | resource
  | idea
deriving DecidableEq

/-- One row of the merged result DataFrame: its kind tag, its projected
cells, and the values of the two sortable columns `updated_at` and
`note_date` in the merged union-of-schemas frame (absent columns of a
row's own kind are `none`, pandas `NaN`). Only the projects projection
carries `updated_at`; only the notes projection carries `note_date`. -/
structure Hit where
  kind : Kind
  vals : List Value
  updatedAt : Option String
  noteDate : Option String
deriving DecidableEq

/-- A surviving projects row, tagged `project`. -/
def projHit (p : Project) : Hit :=
  ⟨.project, projVals p, some p.updated_at, none⟩

/-- A surviving notes row, tagged `note`. -/
def noteHit (s : Store) (n : Note) : Hit :=
  ⟨.note, noteVals s n, none, some n.note_date⟩

/-- A surviving resources row, tagged `resource`. -/
def resHit (s : Store) (r : SResource) : Hit :=
  ⟨.resource, resVals s r, none, none⟩

/-- A surviving ideas row, tagged `idea`. -/
def ideaHit (s : Store) (i : Idea) : Hit :=
  ⟨.idea, ideaVals s i, none, none⟩

/-- The `project_title` cell surfaced by a hit (`NULL` for project rows,
which have no such column in their projection). -/
def Hit.ptitle (h : Hit) : Value :=
  match h.kind with
  | .project => .vNull
  | .note => h.vals.getD 6 .vNull
  | .resource => h.vals.getD 7 .vNull
  | .idea => h.vals.getD 7 .vNull

/-! ### The merge and the recency sort -/

/-- Descending comparison of one sortable column with missing values last
(`ascending=False, na_position="last"`): a result of `.lt` means the first
row comes strictly earlier in the output. -/
def ocmp : Option String → Option String → Ordering
  | some x, some y => ccmp y.data x.data
  | some _, none => .lt
  | none, some _ => .gt
  | none, none => .eq

/-- Lexicographic row comparison for
`sort_values(by=["updated_at","note_date"][:1 or 2])`: primary key
`updated_at`, secondary key `note_date` only when `useND` is true (the
`note_date` column exists, i.e. the notes table was nonempty). -/
def hcmp (useND : Bool) (a b : Hit) : Ordering :=
  match ocmp a.updatedAt b.updatedAt with
  | .eq => if useND then ocmp a.noteDate b.noteDate else .eq
  | o => o

/-- The sort key of a row, up to which the sort is stable. -/
def hkey (useND : Bool) (h : Hit) : Option String × Option String :=
  (h.updatedAt, if useND then h.noteDate else none)

/-- Boolean `a` sorts no later than `b`. -/
def leB (useND : Bool) (a b : Hit) : Bool :=
  match hcmp useND a b with
  | .gt => false
  | _ => true

/-- Stable insertion of a row into an already sorted list. -/
def insertHit (useND : Bool) (x : Hit) : List Hit → List Hit
  | [] => [x]
  | y :: ys => if leB useND x y then x :: y :: ys else y :: insertHit useND x ys

/-- Sort of the merged rows, modelling the `sort_values` call as a stable
insertion sort. Pandas' multi-key lexsort (used whenever `useND` is true,
i.e. both sort columns exist) is stable, so the model is exact there; for
a single sort column pandas' default `quicksort` leaves the order of
key-equal rows unspecified and this deterministic sort is one admissible
refinement — tie-order properties are therefore only claimed under the
multi-key hypothesis. -/
def sortHits (useND : Bool) : List Hit → List Hit
  | [] => []
  | x :: xs => insertHit useND x (sortHits useND xs)

/-- The four filtered, tagged result sets concatenated in the fixed order
project, note, resource, idea (`pd.concat(dfs, ignore_index=True)`). -/
def concatHits (s : Store) (q : String) : List Hit :=
  let qn := lowerStr q
  (s.projects.filter (fun p => matchB qn (projVals p))).map projHit ++
  (s.notes.filter (fun n => matchB qn (noteVals s n))).map (noteHit s) ++
  (s.resources.filter (fun r => matchB qn (resVals s r))).map (resHit s) ++
  (s.ideas.filter (fun i => matchB qn (ideaVals s i))).map (ideaHit s)

/-- `run_semanticish_search(q)`: filter, tag and concatenate the four
kinds, then sort by recency — but only when the merged frame has an
`updated_at` column at all, which happens exactly when the projects table
is nonempty (an empty filtered frame still contributes its columns);
`note_date` is a sort key exactly when the notes table is nonempty. -/
def run_semanticish_search (s : Store) (q : String) : List Hit :=
  if s.projects.isEmpty then concatHits s q
  else sortHits (!s.notes.isEmpty) (concatHits s q)

/-- The dashboard search box: `if q:` guards the call, so only the empty
string short-circuits (Python string truthiness); any nonempty string —
including whitespace — reaches `run_semanticish_search`. -/
def dashboard_search (s : Store) (q : String) : List Hit :=
  if q = "" then [] else run_semanticish_search s q

/-! ### Update of a project row (`page_projects`: `UPDATE projects SET ...
WHERE id=?`) -/

/-- The nine fields written by the project edit form. -/
structure ProjectPatch where
  title : String
  client : Option String
  status : String
  priority : String
  owner : Option String
  start_date : Option String
  due_date : Option String
  description : Option String
  archived : Int
deriving DecidableEq

/-- The effect of the `SET` clause on one matching row: the nine named
fields are overwritten and `updated_at` is refreshed; `id` and
`created_at` are untouched. -/
def applyPatch (p : Project) (f : ProjectPatch) (now : String) : Project :=
  { p with
    title := f.title
    client := f.client
    status := f.status
    priority := some f.priority
    owner := f.owner
    start_date := f.start_date
    due_date := f.due_date
    description := f.description
    archived := f.archived
    updated_at := now }

/-- `UPDATE projects SET <fields>, updated_at=? WHERE id=?`: every row whose
`id` matches is rewritten (at most one, `id` being the primary key); rows
that do not match — including the case of no match at all — are left
alone, and no error is raised (`cursor.execute` simply reports zero
affected rows). -/
def update_project (s : Store) (pid : Int) (f : ProjectPatch) (now : String) :
    Store :=
  { s with projects :=
      s.projects.map (fun p => if p.id = pid then applyPatch p f now else p) }

/-! ### Table lifecycle: `init_db`, the destructive reset, inserts -/

/-- The database file: each of the four tables either exists (with its
rows) or does not. A fresh file has no tables. -/
structure DB where
  projects : Option (List Project)
  notes : Option (List Note)
  resources : Option (List SResource)
  ideas : Option (List Idea)
deriving DecidableEq

/-- `CREATE TABLE IF NOT EXISTS`: creates the table empty when absent,
leaves it untouched (rows included) when present. -/
def ensure_table {α : Type} : Option (List α) → Option (List α)
  | none => some []
  | some l => some l

/-- `init_db()`: one `CREATE TABLE IF NOT EXISTS` per table. -/
def init_db (d : DB) : DB :=
  ⟨ensure_table d.projects, ensure_table d.notes, ensure_table d.resources,
   ensure_table d.ideas⟩

/-- The `DROP TABLE IF EXISTS` loop of the reset button in
`page_settings`. -/
def drop_all_tables (_ : DB) : DB := ⟨none, none, none, none⟩

/-- The reset button: drop all four tables, then `init_db()`. -/
def reset_db (d : DB) : DB := init_db (drop_all_tables d)

/-- `AUTOINCREMENT` id assignment: one larger than any id ever used.
Since no operation deletes single rows, this is one past the maximum
present id (`1` on an empty table, the sequence being cleared by
`DROP TABLE`). -/
def next_id (ids : List Int) : Int := ids.foldr max 0 + 1

/-- `INSERT INTO projects ...`: fails if the table is missing, otherwise
appends the row with a fresh auto-assigned id. -/
def insert_project_db (d : DB) (r : Project) : Option DB :=
  match d.projects with
  | none => none
  | some l =>
    let row := { r with id := next_id (l.map Project.id) }
    some { d with projects := some (l ++ [row]) }

/-- `INSERT INTO notes ...`. -/
def insert_note_db (d : DB) (r : Note) : Option DB :=
  match d.notes with
  | none => none
  | some l =>
    let row := { r with id := next_id (l.map Note.id) }
    some { d with notes := some (l ++ [row]) }

/-- `INSERT INTO resources ...`. -/
def insert_resource_db (d : DB) (r : SResource) : Option DB :=
  match d.resources with
  | none => none
  | some l =>
    let row := { r with id := next_id (l.map SResource.id) }
    some { d with resources := some (l ++ [row]) }

/-- `INSERT INTO ideas ...`. -/
def insert_idea_db (d : DB) (r : Idea) : Option DB :=
  match d.ideas with
  | none => none
  | some l =>
    let row := { r with id := next_id (l.map Idea.id) }
    some { d with ideas := some (l ++ [row]) }

/-! ### Upload paths (`save_uploaded_file`, `page_resources`) -/

/-- The uploads directory constant. -/
def UPLOAD_DIR : String := "uploads"

/-- Membership in the regex character class `[A-Za-z0-9._-]`. -/
def is_safe_char (c : Char) : Bool :=
  decide (('A' ≤ c ∧ c ≤ 'Z') ∨ ('a' ≤ c ∧ c ≤ 'z') ∨ ('0' ≤ c ∧ c ≤ '9') ∨
    c = '.' ∨ c = '_' ∨ c = '-')

/-- `re.sub(r"[^A-Za-z0-9._-]", "_", fname)`: every character outside the
class is replaced by an underscore. -/
def sanitize_filename (s : String) : String :=
  ⟨s.data.map (fun c => if is_safe_char c then c else '_')⟩

/-- `os.path.join` on POSIX for one separator: the right component wins
when absolute, otherwise the two are joined with `/`. -/
def os_path_join (a b : String) : String :=
  if b.data.head? = some '/' then b else a ++ "/" ++ b

/-- The relative path recorded by `save_uploaded_file`:
`os.path.join(UPLOAD_DIR, f"{prefix}{stamp}-{safe}")` where `stamp` is the
UTC timestamp `%Y%m%d-%H%M%S` and `safe` the sanitized original name. -/
def save_uploaded_file_rel (pre stamp fname : String) : String :=
  os_path_join UPLOAD_DIR (pre ++ stamp ++ "-" ++ sanitize_filename fname)

/-- The `local_path` column value built in `page_resources`: `None`
without uploads, otherwise the saved paths joined with `";"`. -/
def resource_local_path (saved : List String) : Option String :=
  match saved with
  | [] => none
  | x :: xs => some (joinSemi (x :: xs))

/-- A database file with no tables at all, as seen on first start. -/
def empty_db : DB := ⟨none, none, none, none⟩

/-- A freshly created store: `init_db` on a table-less file. -/
def fresh_db : DB := init_db empty_db

/-- View of an initialized database as the four row lists (missing tables
read as empty, which never happens after `init_db`). -/
def db_store (d : DB) : Store :=
  ⟨d.projects.getD [], d.notes.getD [], d.resources.getD [],
   d.ideas.getD []⟩

/-! ### Concrete example data used by witnesses and counterexamples -/

/-- Example project row for the C1 witness store. -/
def p1w : Project :=
  { id := 1, title := "Acme Portal", client := none, status := "診察中",
    priority := some "中", owner := none, start_date := none, due_date := none,
    description := none, archived := 0, created_at := "2024-01-01T09:00:00",
    updated_at := "2024-01-01T09:00:00" }

/-- Example note row for the C1 witness store. -/
def n1w : Note :=
  { id := 1, project_id := 1, note_date := "2024-01-02", author := none,
    content := "initial kickoff call", next_action := none,
    progress_percent := 0, created_at := "2024-01-02T09:00:00",
    updated_at := "2024-01-02T09:00:00" }

/-- C1 witness: a resource attached to Case 1. With `r1wb` also present,
the resources `project_id` column mixes a value and a `NULL`, so pandas
reads it as float64 and this cell stringifies as "1.0". -/
def r1wa : SResource :=
  { id := 1, project_id := some 1, title := none, kind := some "Web",
    url := none, local_path := none, tags := none, note := none,
    created_at := "2024-01-03T00:00:00", updated_at := "2024-01-03T00:00:00" }

/-- C1 witness: an unattached resource; its `project_id` cell is float64
`NaN` and stringifies as "nan". -/
def r1wb : SResource :=
  { id := 2, project_id := none, title := none, kind := some "Web",
    url := none, local_path := none, tags := none, note := none,
    created_at := "2024-01-04T00:00:00", updated_at := "2024-01-04T00:00:00" }

/-- Witness store for C1: one project, one note, and a resources table
whose `project_id` column mixes a value and a `NULL`. -/
def s1w : Store := ⟨[p1w], [n1w], [r1wa, r1wb], []⟩

/-- C2 counterexample: a project updated on 2024-01-01. -/
def p2c : Project :=
  { id := 1, title := "widget", client := none, status := "診察中",
    priority := some "中", owner := none, start_date := none, due_date := none,
    description := none, archived := 0, created_at := "2024-01-01T00:00:00",
    updated_at := "2024-01-01T00:00:00" }

/-- C2 counterexample: a matching resource updated later, on 2024-06-01. -/
def r2c : SResource :=
  { id := 1, project_id := none, title := some "widget docs",
    kind := some "Web", url := none, local_path := none, tags := none,
    note := none, created_at := "2024-06-01T00:00:00",
    updated_at := "2024-06-01T00:00:00" }

/-- C2 counterexample store. -/
def s2c : Store := ⟨[p2c], [], [r2c], []⟩

/-- C2 witness: the older of two matching projects, inserted first. -/
def p2w2 : Project :=
  { p2c with id := 1, updated_at := "2024-01-01T00:00:00" }

/-- C2 witness: the newer of two matching projects, inserted second. -/
def p2w1 : Project :=
  { p2c with id := 2, updated_at := "2024-02-01T00:00:00" }

/-- C2 witness store: two matching projects, older row first. -/
def s2w : Store := ⟨[p2w2, p2w1], [], [], []⟩

/-- C3 scenario: the Case as passed to the insert (id auto-assigned). -/
def p3t : Project :=
  { id := 0, title := "Acme Portal", client := none, status := "診察中",
    priority := some "中", owner := none, start_date := none, due_date := none,
    description := none, archived := 0, created_at := "2024-01-01T09:00:00",
    updated_at := "2024-01-01T09:00:00" }

/-- C3 scenario: the Note as passed to the insert, owned by Case 1. -/
def n3t : Note :=
  { id := 0, project_id := 1, note_date := "2024-01-02", author := none,
    content := "initial kickoff call", next_action := none,
    progress_percent := 0, created_at := "2024-01-02T09:00:00",
    updated_at := "2024-01-02T09:00:00" }

/-- C3 scenario store: insert the Case, then the Note, into a fresh store. -/
def s3c : Store :=
  db_store (Option.getD
    ((insert_project_db fresh_db p3t).bind (fun d => insert_note_db d n3t))
    fresh_db)

/-- The Case row as stored (id 1). -/
def p3c : Project := { p3t with id := 1 }

/-- The Note row as stored (id 1). -/
def n3c : Note := { n3t with id := 1 }

/-- C4 counterexample project row. -/
def p4c : Project :=
  { id := 1, title := "widget", client := none, status := "診察中",
    priority := some "中", owner := none, start_date := none, due_date := none,
    description := none, archived := 0, created_at := "2024-01-01T00:00:00",
    updated_at := "2024-01-01T00:00:00" }

/-- C4 counterexample store: one project only. -/
def s4c : Store := ⟨[p4c], [], [], []⟩

/-- C5 counterexample: a project so the sort step runs (it does not match
the query). -/
def p5c : Project :=
  { id := 1, title := "proj", client := none, status := "診察中",
    priority := some "中", owner := none, start_date := none, due_date := none,
    description := none, archived := 0, created_at := "2024-01-01T00:00:00",
    updated_at := "2024-01-01T00:00:00" }

/-- C5 counterexample: first matching note, earlier `note_date`. -/
def n5a : Note :=
  { id := 1, project_id := 1, note_date := "2024-01-01", author := none,
    content := "alpha topic", next_action := none, progress_percent := 0,
    created_at := "2024-01-05T00:00:00", updated_at := "2024-01-05T00:00:00" }

/-- C5 counterexample: second matching note, later `note_date`. -/
def n5b : Note :=
  { id := 2, project_id := 1, note_date := "2024-01-02", author := none,
    content := "alpha topic", next_action := none, progress_percent := 0,
    created_at := "2024-01-05T00:00:00", updated_at := "2024-01-05T00:00:00" }

/-- C5 counterexample store. -/
def s5c : Store := ⟨[p5c], [n5a, n5b], [], []⟩

/-- C6 witness: the owning Case. -/
def p6w : Project :=
  { id := 1, title := "Acme Portal", client := none, status := "診察中",
    priority := some "中", owner := none, start_date := none, due_date := none,
    description := none, archived := 0, created_at := "2024-01-01T00:00:00",
    updated_at := "2024-01-01T00:00:00" }

/-- C6 witness: a resource whose own fields never mention the query. -/
def r6w : SResource :=
  { id := 1, project_id := some 1, title := none, kind := some "Web",
    url := none, local_path := none, tags := none, note := none,
    created_at := "2024-01-03T00:00:00", updated_at := "2024-01-03T00:00:00" }

/-- C6 witness store. -/
def s6w : Store := ⟨[p6w], [], [r6w], []⟩

/-- C7 witness project row (id 1). -/
def p7w : Project :=
  { id := 1, title := "old title", client := none, status := "診察中",
    priority := some "中", owner := none, start_date := none, due_date := none,
    description := none, archived := 0, created_at := "2024-01-01T00:00:00",
    updated_at := "2024-01-01T00:00:00" }

/-- C7 witness store. -/
def s7w : Store := ⟨[p7w], [], [], []⟩

/-- C7 witness patch. -/
def f7w : ProjectPatch :=
  { title := "new title", client := some "A社", status := "完了",
    priority := "高", owner := none, start_date := none, due_date := none,
    description := none, archived := 0 }

/-- C9 witness project row. -/
def p9w : Project :=
  { id := 1, title := "kept row", client := none, status := "診察中",
    priority := some "中", owner := none, start_date := none, due_date := none,
    description := none, archived := 0, created_at := "2024-01-01T00:00:00",
    updated_at := "2024-01-01T00:00:00" }

/-- C9 witness database: projects table exists with one row, notes table
exists empty, the other two tables are missing. -/
def d9w : DB := ⟨some [p9w], some [], none, none⟩

/-! ### Helper lemmas -/

/-! ### Substring and haystack lemmas -/

theorem isInfixB_of_isPrefixB {n h : List Char} (hp : isPrefixB n h = true) :
    isInfixB n h = true := by
  cases h with
  | nil => simpa [isInfixB] using hp
  | cons c t => simp [isInfixB, hp]

theorem isPrefixB_append :
    ∀ {n h : List Char}, isPrefixB n h = true →
      ∀ (s : List Char), isPrefixB n (h ++ s) = true := by
  intro n
  induction n with
  | nil => intro h _ s; rfl
  | cons a as ih =>
    intro h hp s
    cases h with
    | nil => simp [isPrefixB] at hp
    | cons b bs =>
      simp only [isPrefixB, Bool.and_eq_true] at hp
      simp only [List.cons_append, isPrefixB, Bool.and_eq_true]
      exact ⟨hp.1, ih hp.2 s⟩

theorem isInfixB_cons {n t : List Char} (c : Char) (hi : isInfixB n t = true) :
    isInfixB n (c :: t) = true := by
  simp [isInfixB, hi]

theorem isInfixB_append_left {n h : List Char} (hi : isInfixB n h = true) :
    ∀ pre, isInfixB n (pre ++ h) = true
  | [] => hi
  | c :: pre => by
    simpa using isInfixB_cons c (isInfixB_append_left hi pre)

theorem isInfixB_append_right {n : List Char} :
    ∀ {h : List Char} (s : List Char), isInfixB n h = true →
      isInfixB n (h ++ s) = true := by
  intro h
  induction h with
  | nil =>
    intro s hi
    cases n with
    | nil => exact isInfixB_of_isPrefixB rfl
    | cons a as => simp [isInfixB, isPrefixB] at hi
  | cons c t ih =>
    intro s hi
    simp only [isInfixB, Bool.or_eq_true] at hi
    rcases hi with hp | ht
    · exact isInfixB_of_isPrefixB (by simpa using isPrefixB_append hp s)
    · exact isInfixB_cons c (ih s ht)

theorem haystack_cons_cons (v w : Value) (rest : List Value) :
    haystack (v :: w :: rest) = elemRep v ++ " " ++ haystack (w :: rest) := rfl

theorem matchB_of_elem {qn : String} {vals : List Value} {v : Value}
    (hv : v ∈ vals) (hi : isSub qn (elemRep v) = true) :
    matchB qn vals = true := by
  induction vals with
  | nil => simp at hv
  | cons w rest ih =>
    rcases List.mem_cons.mp hv with rfl | hv'
    · cases rest with
      | nil => simpa [matchB, isSub, haystack] using hi
      | cons w2 t =>
        show isSub qn (haystack (v :: w2 :: t)) = true
        rw [haystack_cons_cons]
        simp only [isSub, String.data_append, List.append_assoc]
        exact isInfixB_append_right _ hi
    · cases rest with
      | nil => simp at hv'
      | cons w2 t =>
        have hrest : matchB qn (w2 :: t) = true := ih hv'
        show isSub qn (haystack (w :: w2 :: t)) = true
        rw [haystack_cons_cons]
        simp only [isSub, String.data_append, List.append_assoc]
        rw [← List.append_assoc]
        exact isInfixB_append_left hrest _

theorem space_matchB (v w : Value) (rest : List Value) :
    matchB " " (v :: w :: rest) = true := by
  show isSub " " (haystack (v :: w :: rest)) = true
  rw [haystack_cons_cons]
  simp only [isSub, String.data_append, List.append_assoc]
  apply isInfixB_append_left
  exact isInfixB_of_isPrefixB (by simp [isPrefixB])

/-! ### Comparator lemmas -/

theorem ccmp_eq_iff : ∀ {a b : List Char}, ccmp a b = .eq ↔ a = b := by
  intro a
  induction a with
  | nil => intro b; cases b <;> simp [ccmp]
  | cons x xs ih =>
    intro b
    cases b with
    | nil => simp [ccmp]
    | cons y ys =>
      simp only [ccmp]
      by_cases h1 : x.toNat < y.toNat
      · rw [if_pos h1]
        constructor
        · intro hc; exact absurd hc (by simp)
        · intro hc
          injection hc with hx _
          subst hx
          exact absurd h1 (Nat.lt_irrefl _)
      · by_cases h2 : y.toNat < x.toNat
        · rw [if_neg h1, if_pos h2]
          constructor
          · intro hc; exact absurd hc (by simp)
          · intro hc
            injection hc with hx _
            subst hx
            exact absurd h2 (Nat.lt_irrefl _)
        · have hx : x = y := by
            apply Char.ext
            apply UInt32.toNat.inj
            have e1 : x.toNat = x.val.toNat := rfl
            have e2 : y.toNat = y.val.toNat := rfl
            omega
          subst hx
          rw [if_neg h1, if_neg h2, ih]
          simp

theorem ccmp_self (a : List Char) : ccmp a a = .eq := ccmp_eq_iff.mpr rfl

theorem ccmp_swap : ∀ (a b : List Char), (ccmp a b).swap = ccmp b a := by
  intro a
  induction a with
  | nil => intro b; cases b <;> rfl
  | cons x xs ih =>
    intro b
    cases b with
    | nil => rfl
    | cons y ys =>
      simp only [ccmp]
      by_cases h1 : x.toNat < y.toNat
      · rw [if_pos h1, if_neg (show ¬ y.toNat < x.toNat by omega), if_pos h1]
        rfl
      · by_cases h2 : y.toNat < x.toNat
        · rw [if_neg h1, if_pos h2, if_pos h2]
          rfl
        · rw [if_neg h1, if_neg h2, if_neg h2, if_neg h1]
          exact ih ys

theorem ccmp_lt_trans :
    ∀ {a b c : List Char}, ccmp a b = .lt → ccmp b c = .lt → ccmp a c = .lt := by
  intro a
  induction a with
  | nil =>
    intro b c hab hbc
    cases b with
    | nil => exact absurd hab (by simp [ccmp])
    | cons y ys =>
      cases c with
      | nil => exact absurd hbc (by simp [ccmp])
      | cons z zs => rfl
  | cons x xs ih =>
    intro b c hab hbc
    cases b with
    | nil => exact absurd hab (by simp [ccmp])
    | cons y ys =>
      cases c with
      | nil => exact absurd hbc (by simp [ccmp])
      | cons z zs =>
        simp only [ccmp] at hab hbc ⊢
        by_cases h1 : x.toNat < y.toNat
        · by_cases h3 : y.toNat < z.toNat
          · rw [if_pos (show x.toNat < z.toNat by omega)]
          · by_cases h4 : z.toNat < y.toNat
            · rw [if_neg h3, if_pos h4] at hbc
              exact absurd hbc (by simp)
            · rw [if_pos (show x.toNat < z.toNat by omega)]
        · by_cases h2 : y.toNat < x.toNat
          · rw [if_neg h1, if_pos h2] at hab
            exact absurd hab (by simp)
          · rw [if_neg h1, if_neg h2] at hab
            by_cases h3 : y.toNat < z.toNat
            · rw [if_pos (show x.toNat < z.toNat by omega)]
            · by_cases h4 : z.toNat < y.toNat
              · rw [if_neg h3, if_pos h4] at hbc
                exact absurd hbc (by simp)
              · rw [if_neg h3, if_neg h4] at hbc
                rw [if_neg (show ¬ x.toNat < z.toNat by omega),
                  if_neg (show ¬ z.toNat < x.toNat by omega)]
                exact ih hab hbc

theorem strExt {s t : String} (h : s.data = t.data) : s = t := by
  cases s; cases t; exact congrArg String.mk h

theorem ocmp_eq_iff : ∀ {a b : Option String}, ocmp a b = .eq ↔ a = b := by
  intro a b
  cases a with
  | none =>
    cases b with
    | none => simp [ocmp]
    | some y => simp [ocmp]
  | some x =>
    cases b with
    | none => simp [ocmp]
    | some y =>
      simp only [ocmp, Option.some.injEq]
      rw [ccmp_eq_iff]
      constructor
      · intro h; exact (strExt h).symm
      · intro h; rw [h]

theorem ocmp_self (a : Option String) : ocmp a a = .eq := ocmp_eq_iff.mpr rfl

theorem ocmp_gt_rev {a b : Option String} (h : ocmp a b = .gt) : ocmp b a = .lt := by
  cases a with
  | none =>
    cases b with
    | none => exact absurd h (by simp [ocmp])
    | some y => rfl
  | some x =>
    cases b with
    | none => exact absurd h (by simp [ocmp])
    | some y =>
      simp only [ocmp] at h ⊢
      have hs := ccmp_swap y.data x.data
      rw [h] at hs
      exact hs.symm

theorem ocmp_lt_trans {a b c : Option String}
    (hab : ocmp a b = .lt) (hbc : ocmp b c = .lt) : ocmp a c = .lt := by
  cases a with
  | none =>
    cases b with
    | none => exact absurd hab (by simp [ocmp])
    | some y => exact absurd hab (by simp [ocmp])
  | some x =>
    cases c with
    | none => rfl
    | some z =>
      cases b with
      | none => exact absurd hbc (by simp [ocmp])
      | some y =>
        simp only [ocmp] at hab hbc ⊢
        exact ccmp_lt_trans hbc hab

theorem ocmp_notgt_trans {a b c : Option String}
    (hab : ocmp a b ≠ .gt) (hbc : ocmp b c ≠ .gt) : ocmp a c ≠ .gt := by
  cases h1 : ocmp a b with
  | gt => exact absurd h1 hab
  | lt =>
    cases h2 : ocmp b c with
    | gt => exact absurd h2 hbc
    | lt => rw [ocmp_lt_trans h1 h2]; simp
    | eq =>
      rw [← ocmp_eq_iff.mp h2, h1]
      simp
  | eq =>
    rw [ocmp_eq_iff.mp h1]
    exact hbc

/-! ### Row-comparison lemmas -/

theorem hcmp_eq_of_key {u : Bool} {a b : Hit} (h : hkey u a = hkey u b) :
    hcmp u a b = .eq := by
  have h1 : a.updatedAt = b.updatedAt := congrArg Prod.fst h
  have h2 : (if u then a.noteDate else none) = (if u then b.noteDate else none) :=
    congrArg Prod.snd h
  have h3 : ocmp a.updatedAt b.updatedAt = .eq := by rw [h1]; exact ocmp_self _
  simp only [hcmp, h3]
  cases u with
  | false => rfl
  | true =>
    have h2' : a.noteDate = b.noteDate := by simpa using h2
    show ocmp a.noteDate b.noteDate = .eq
    rw [h2']
    exact ocmp_self _

theorem hcmp_gt_rev {u : Bool} {a b : Hit} (h : hcmp u a b = .gt) :
    hcmp u b a = .lt := by
  cases h1 : ocmp a.updatedAt b.updatedAt with
  | lt => simp [hcmp, h1] at h
  | gt =>
    have h2 := ocmp_gt_rev h1
    simp [hcmp, h2]
  | eq =>
    have h1' : a.updatedAt = b.updatedAt := ocmp_eq_iff.mp h1
    have h2 : ocmp b.updatedAt a.updatedAt = .eq := by rw [h1']; exact ocmp_self _
    simp only [hcmp, h1] at h
    simp only [hcmp, h2]
    cases u with
    | false => simp at h
    | true =>
      have h' : ocmp a.noteDate b.noteDate = .gt := h
      show ocmp b.noteDate a.noteDate = .lt
      exact ocmp_gt_rev h'

theorem hcmp_notgt_trans {u : Bool} {a b c : Hit}
    (hab : hcmp u a b ≠ .gt) (hbc : hcmp u b c ≠ .gt) : hcmp u a c ≠ .gt := by
  cases h1 : ocmp a.updatedAt b.updatedAt with
  | gt => exact absurd (by simp [hcmp, h1]) hab
  | lt =>
    cases h2 : ocmp b.updatedAt c.updatedAt with
    | gt => exact absurd (by simp [hcmp, h2]) hbc
    | lt =>
      have h3 := ocmp_lt_trans h1 h2
      simp [hcmp, h3]
    | eq =>
      have hec : b.updatedAt = c.updatedAt := ocmp_eq_iff.mp h2
      have h3 : ocmp a.updatedAt c.updatedAt = .lt := by rw [← hec]; exact h1
      simp [hcmp, h3]
  | eq =>
    have heb : a.updatedAt = b.updatedAt := ocmp_eq_iff.mp h1
    cases h2 : ocmp b.updatedAt c.updatedAt with
    | gt => exact absurd (by simp [hcmp, h2]) hbc
    | lt =>
      have h3 : ocmp a.updatedAt c.updatedAt = .lt := by rw [heb]; exact h2
      simp [hcmp, h3]
    | eq =>
      have h3 : ocmp a.updatedAt c.updatedAt = .eq := by rw [heb]; exact h2
      simp only [hcmp, h1] at hab
      simp only [hcmp, h2] at hbc
      simp only [hcmp, h3]
      cases u with
      | false => simp
      | true =>
        have hab' : ocmp a.noteDate b.noteDate ≠ .gt := hab
        have hbc' : ocmp b.noteDate c.noteDate ≠ .gt := hbc
        show ocmp a.noteDate c.noteDate ≠ .gt
        exact ocmp_notgt_trans hab' hbc'

theorem leB_true_iff {u : Bool} {a b : Hit} :
    leB u a b = true ↔ hcmp u a b ≠ .gt := by
  unfold leB
  cases h : hcmp u a b <;> simp

theorem leB_false_iff {u : Bool} {a b : Hit} :
    leB u a b = false ↔ hcmp u a b = .gt := by
  unfold leB
  cases h : hcmp u a b <;> simp

theorem leB_total {u : Bool} {a b : Hit} (h : leB u a b = false) :
    leB u b a = true := by
  have h1 : hcmp u a b = .gt := leB_false_iff.mp h
  have h2 := hcmp_gt_rev h1
  rw [leB_true_iff, h2]
  simp

theorem leB_trans {u : Bool} {a b c : Hit}
    (h1 : leB u a b = true) (h2 : leB u b c = true) : leB u a c = true := by
  rw [leB_true_iff] at h1 h2 ⊢
  exact hcmp_notgt_trans h1 h2

theorem key_ne_of_leB_false {u : Bool} {x y : Hit} (h : leB u x y = false) :
    hkey u x ≠ hkey u y := by
  intro hk
  rw [leB_false_iff, hcmp_eq_of_key hk] at h
  exact absurd h (by simp)

/-! ### Sorting lemmas: membership, sortedness, stability -/

theorem mem_insertHit {u : Bool} {x : Hit} :
    ∀ {l : List Hit} {a : Hit}, a ∈ insertHit u x l ↔ a = x ∨ a ∈ l := by
  intro l
  induction l with
  | nil => intro a; simp [insertHit]
  | cons y ys ih =>
    intro a
    unfold insertHit
    by_cases hle : leB u x y = true
    · rw [if_pos hle]
      simp [or_comm, or_left_comm, or_assoc]
    · rw [if_neg hle]
      simp only [List.mem_cons, ih]
      tauto

theorem mem_sortHits {u : Bool} :
    ∀ {l : List Hit} {a : Hit}, a ∈ sortHits u l ↔ a ∈ l := by
  intro l
  induction l with
  | nil => intro a; simp [sortHits]
  | cons x xs ih =>
    intro a
    unfold sortHits
    rw [mem_insertHit]
    simp [ih]

theorem insertHit_pairwise {u : Bool} {x : Hit} :
    ∀ {l : List Hit}, l.Pairwise (fun a b => leB u a b = true) →
      (insertHit u x l).Pairwise (fun a b => leB u a b = true) := by
  intro l
  induction l with
  | nil => intro _; simp [insertHit]
  | cons y ys ih =>
    intro hp
    rcases List.pairwise_cons.mp hp with ⟨hy, hys⟩
    unfold insertHit
    by_cases hle : leB u x y = true
    · rw [if_pos hle]
      refine List.pairwise_cons.mpr ⟨?_, hp⟩
      intro b hb
      rcases List.mem_cons.mp hb with rfl | hb'
      · exact hle
      · exact leB_trans hle (hy b hb')
    · rw [if_neg hle]
      refine List.pairwise_cons.mpr ⟨?_, ih hys⟩
      intro b hb
      rcases mem_insertHit.mp hb with rfl | hb'
      · exact leB_total (by simpa using hle)
      · exact hy b hb'

theorem sortHits_pairwise (u : Bool) :
    ∀ l : List Hit, (sortHits u l).Pairwise (fun a b => leB u a b = true) := by
  intro l
  induction l with
  | nil => simp [sortHits]
  | cons x xs ih => exact insertHit_pairwise ih

theorem insertHit_decomp {u : Bool} {x : Hit} :
    ∀ l : List Hit, ∃ l₁ l₂, l = l₁ ++ l₂ ∧ insertHit u x l = l₁ ++ x :: l₂ ∧
      ∀ y ∈ l₁, leB u x y = false := by
  intro l
  induction l with
  | nil => exact ⟨[], [], rfl, rfl, by simp⟩
  | cons y ys ih =>
    by_cases hle : leB u x y = true
    · exact ⟨[], y :: ys, rfl, by simp [insertHit, hle], by simp⟩
    · rcases ih with ⟨l₁, l₂, he, hi, hall⟩
      refine ⟨y :: l₁, l₂, by simp [he], ?_, ?_⟩
      · show insertHit u x (y :: ys) = y :: l₁ ++ x :: l₂
        unfold insertHit
        rw [if_neg hle, hi]
        simp
      · intro z hz
        rcases List.mem_cons.mp hz with rfl | hz'
        · simpa using hle
        · exact hall z hz'

theorem filter_insertHit {u : Bool} {x : Hit} (k : Option String × Option String)
    (l : List Hit) :
    (insertHit u x l).filter (fun h => decide (hkey u h = k)) =
      if hkey u x = k then x :: l.filter (fun h => decide (hkey u h = k))
      else l.filter (fun h => decide (hkey u h = k)) := by
  rcases insertHit_decomp (u := u) (x := x) l with ⟨l₁, l₂, he, hi, hall⟩
  subst he
  rw [hi, List.filter_append, List.filter_append, List.filter_cons]
  by_cases hk : hkey u x = k
  · have h1 : l₁.filter (fun h => decide (hkey u h = k)) = [] := by
      refine List.filter_eq_nil_iff.mpr ?_
      intro y hy
      have hne := key_ne_of_leB_false (hall y hy)
      simp only [decide_eq_true_eq]
      intro hyk
      exact hne (by rw [hk, hyk])
    rw [h1, if_pos (by simp [hk]), if_pos hk]
    simp
  · rw [if_neg (by simp [hk]), if_neg hk]

theorem filter_sortHits (u : Bool) (k : Option String × Option String) :
    ∀ l : List Hit, (sortHits u l).filter (fun h => decide (hkey u h = k)) =
      l.filter (fun h => decide (hkey u h = k)) := by
  intro l
  induction l with
  | nil => rfl
  | cons x xs ih =>
    show (insertHit u x (sortHits u xs)).filter _ = _
    rw [filter_insertHit, List.filter_cons]
    by_cases hk : hkey u x = k
    · rw [if_pos hk, if_pos (by simp [hk]), ih]
    · rw [if_neg hk, if_neg (by simp [hk]), ih]

/-! ### Search membership characterization -/

theorem mem_concatHits {s : Store} {q : String} {h : Hit} :
    h ∈ concatHits s q ↔
      (∃ p, p ∈ s.projects ∧ matchB (lowerStr q) (projVals p) = true ∧ h = projHit p) ∨
      (∃ n, n ∈ s.notes ∧ matchB (lowerStr q) (noteVals s n) = true ∧ h = noteHit s n) ∨
      (∃ r, r ∈ s.resources ∧ matchB (lowerStr q) (resVals s r) = true ∧ h = resHit s r) ∨
      (∃ i, i ∈ s.ideas ∧ matchB (lowerStr q) (ideaVals s i) = true ∧ h = ideaHit s i) := by
  simp only [concatHits, List.mem_append, List.mem_map, List.mem_filter]
  constructor
  · rintro (((⟨a, ⟨ha, hm⟩, he⟩ | ⟨a, ⟨ha, hm⟩, he⟩) | ⟨a, ⟨ha, hm⟩, he⟩) | ⟨a, ⟨ha, hm⟩, he⟩)
    · exact Or.inl ⟨a, ha, hm, he.symm⟩
    · exact Or.inr (Or.inl ⟨a, ha, hm, he.symm⟩)
    · exact Or.inr (Or.inr (Or.inl ⟨a, ha, hm, he.symm⟩))
    · exact Or.inr (Or.inr (Or.inr ⟨a, ha, hm, he.symm⟩))
  · rintro (⟨a, ha, hm, he⟩ | ⟨a, ha, hm, he⟩ | ⟨a, ha, hm, he⟩ | ⟨a, ha, hm, he⟩)
    · exact Or.inl (Or.inl (Or.inl ⟨a, ⟨ha, hm⟩, he.symm⟩))
    · exact Or.inl (Or.inl (Or.inr ⟨a, ⟨ha, hm⟩, he.symm⟩))
    · exact Or.inl (Or.inr ⟨a, ⟨ha, hm⟩, he.symm⟩)
    · exact Or.inr ⟨a, ⟨ha, hm⟩, he.symm⟩

theorem mem_run_search {s : Store} {q : String} {h : Hit} :
    h ∈ run_semanticish_search s q ↔ h ∈ concatHits s q := by
  unfold run_semanticish_search
  by_cases he : s.projects.isEmpty
  · rw [if_pos he]
  · rw [if_neg he]
    exact mem_sortHits

theorem projHit_mem_search_iff {s : Store} {q : String} {p : Project}
    (hp : p ∈ s.projects) :
    projHit p ∈ run_semanticish_search s q ↔
      matchB (lowerStr q) (projVals p) = true := by
  rw [mem_run_search, mem_concatHits]
  constructor
  · rintro (⟨a, _, hm, he⟩ | ⟨a, _, _, he⟩ | ⟨a, _, _, he⟩ | ⟨a, _, _, he⟩)
    · have hv : projVals p = projVals a := congrArg Hit.vals he
      rw [hv]
      exact hm
    · exact absurd (congrArg Hit.kind he) (by simp [projHit, noteHit])
    · exact absurd (congrArg Hit.kind he) (by simp [projHit, resHit])
    · exact absurd (congrArg Hit.kind he) (by simp [projHit, ideaHit])
  · intro hm
    exact Or.inl ⟨p, hp, hm, rfl⟩

theorem noteHit_mem_search_iff {s : Store} {q : String} {n : Note}
    (hn : n ∈ s.notes) :
    noteHit s n ∈ run_semanticish_search s q ↔
      matchB (lowerStr q) (noteVals s n) = true := by
  rw [mem_run_search, mem_concatHits]
  constructor
  · rintro (⟨a, _, _, he⟩ | ⟨a, _, hm, he⟩ | ⟨a, _, _, he⟩ | ⟨a, _, _, he⟩)
    · exact absurd (congrArg Hit.kind he) (by simp [projHit, noteHit])
    · have hv : noteVals s n = noteVals s a := congrArg Hit.vals he
      rw [hv]
      exact hm
    · exact absurd (congrArg Hit.kind he) (by simp [noteHit, resHit])
    · exact absurd (congrArg Hit.kind he) (by simp [noteHit, ideaHit])
  · intro hm
    exact Or.inr (Or.inl ⟨n, hn, hm, rfl⟩)

theorem resHit_mem_search_iff {s : Store} {q : String} {r : SResource}
    (hr : r ∈ s.resources) :
    resHit s r ∈ run_semanticish_search s q ↔
      matchB (lowerStr q) (resVals s r) = true := by
  rw [mem_run_search, mem_concatHits]
  constructor
  · rintro (⟨a, _, _, he⟩ | ⟨a, _, _, he⟩ | ⟨a, _, hm, he⟩ | ⟨a, _, _, he⟩)
    · exact absurd (congrArg Hit.kind he) (by simp [projHit, resHit])
    · exact absurd (congrArg Hit.kind he) (by simp [noteHit, resHit])
    · have hv : resVals s r = resVals s a := congrArg Hit.vals he
      rw [hv]
      exact hm
    · exact absurd (congrArg Hit.kind he) (by simp [resHit, ideaHit])
  · intro hm
    exact Or.inr (Or.inr (Or.inl ⟨r, hr, hm, rfl⟩))

theorem ideaHit_mem_search_iff {s : Store} {q : String} {i : Idea}
    (hi : i ∈ s.ideas) :
    ideaHit s i ∈ run_semanticish_search s q ↔
      matchB (lowerStr q) (ideaVals s i) = true := by
  rw [mem_run_search, mem_concatHits]
  constructor
  · rintro (⟨a, _, _, he⟩ | ⟨a, _, _, he⟩ | ⟨a, _, _, he⟩ | ⟨a, _, hm, he⟩)
    · exact absurd (congrArg Hit.kind he) (by simp [projHit, ideaHit])
    · exact absurd (congrArg Hit.kind he) (by simp [noteHit, ideaHit])
    · exact absurd (congrArg Hit.kind he) (by simp [resHit, ideaHit])
    · have hv : ideaVals s i = ideaVals s a := congrArg Hit.vals he
      rw [hv]
      exact hm
  · intro hm
    exact Or.inr (Or.inr (Or.inr ⟨i, hi, hm, rfl⟩))

theorem updatedAt_some_of_mem {s : Store} {q : String} {h : Hit} {u : String}
    (hm : h ∈ concatHits s q) (hu : h.updatedAt = some u) :
    ∃ p, p ∈ s.projects ∧ h = projHit p := by
  rcases mem_concatHits.mp hm with ⟨a, ha, _, he⟩ | ⟨a, _, _, he⟩ |
    ⟨a, _, _, he⟩ | ⟨a, _, _, he⟩
  · exact ⟨a, ha, he⟩
  · rw [he] at hu; exact absurd hu (by simp [noteHit])
  · rw [he] at hu; exact absurd hu (by simp [resHit])
  · rw [he] at hu; exact absurd hu (by simp [ideaHit])

theorem pairwise_apply {α : Type} {R : α → α → Prop} {l : List α}
    (hp : l.Pairwise R) {i j : Nat} {a b : α} (hij : i < j)
    (ha : l[i]? = some a) (hb : l[j]? = some b) : R a b := by
  rcases List.getElem?_eq_some.mp ha with ⟨hi, hga⟩
  rcases List.getElem?_eq_some.mp hb with ⟨hj, hgb⟩
  have := List.pairwise_iff_get.mp hp ⟨i, hi⟩ ⟨j, hj⟩ (by simpa using hij)
  simpa [List.get_eq_getElem, hga, hgb] using this

theorem map_id_of_eq {α : Type} {l : List α} {f : α → α}
    (h : ∀ a ∈ l, f a = a) : l.map f = l := by
  induction l with
  | nil => rfl
  | cons x xs ih =>
    simp only [List.map_cons]
    rw [h x (by simp), ih (fun a ha => h a (by simp [ha]))]

/-! ### The claims -/

/-- Claim C1: for every row of each of the four entity types, the search
keeps the row if and only if the lowered query is a substring of the
lowered, space-joined stringification of all of that row's projected
column values — nulls rendered as the textual placeholder of their
column's inferred dtype: `None` in object columns, `nan` in the
float64-coerced mixed-null integer columns (`resources.project_id`,
`ideas.project_id`), whose present values render as `<n>.0`; every kept
row carries its correct kind tag; and a query that is a substring of a
single projected column's stringified value matches the whole row. -/
theorem C1_search_match_iff :
    (∀ (s : Store) (q : String) (p : Project), p ∈ s.projects →
      (projHit p ∈ run_semanticish_search s q ↔
        isSub (lowerStr q) (haystack (projVals p)) = true)) ∧
    (∀ (s : Store) (q : String) (n : Note), n ∈ s.notes →
      (noteHit s n ∈ run_semanticish_search s q ↔
        isSub (lowerStr q) (haystack (noteVals s n)) = true)) ∧
    (∀ (s : Store) (q : String) (r : SResource), r ∈ s.resources →
      (resHit s r ∈ run_semanticish_search s q ↔
        isSub (lowerStr q) (haystack (resVals s r)) = true)) ∧
    (∀ (s : Store) (q : String) (i : Idea), i ∈ s.ideas →
      (ideaHit s i ∈ run_semanticish_search s q ↔
        isSub (lowerStr q) (haystack (ideaVals s i)) = true)) ∧
    (∀ p : Project, (projHit p).kind = Kind.project) ∧
    (∀ (s : Store) (n : Note), (noteHit s n).kind = Kind.note) ∧
    (∀ (s : Store) (r : SResource), (resHit s r).kind = Kind.resource) ∧
    (∀ (s : Store) (i : Idea), (ideaHit s i).kind = Kind.idea) ∧
    (∀ (q : String) (vals : List Value) (v : Value), v ∈ vals →
      isSub (lowerStr q) (elemRep v) = true →
      matchB (lowerStr q) vals = true) := by
  refine ⟨?_, ?_, ?_, ?_, fun _ => rfl, fun _ _ => rfl, fun _ _ => rfl,
    fun _ _ => rfl, ?_⟩
  · intro s q p hp
    exact projHit_mem_search_iff hp
  · intro s q n hn
    exact noteHit_mem_search_iff hn
  · intro s q r hr
    exact resHit_mem_search_iff hr
  · intro s q i hi
    exact ideaHit_mem_search_iff hi
  · intro q vals v hv hs
    exact matchB_of_elem hv hs

/-- Claim C1 witness: on the concrete store `s1w`, searching for "acme"
keeps the project row and "Kickoff" keeps the note row; and on the
mixed-null resources table the float64 renderings are live — the query
"1.0" keeps the attached resource through its coerced `project_id` cell,
and "nan" keeps the unattached one through its `NaN` cell. -/
theorem C1_search_match_iff_witness :
    p1w ∈ s1w.projects ∧ n1w ∈ s1w.notes ∧
    r1wa ∈ s1w.resources ∧ r1wb ∈ s1w.resources ∧
    projHit p1w ∈ run_semanticish_search s1w "acme" ∧
    noteHit s1w n1w ∈ run_semanticish_search s1w "Kickoff" ∧
    resHit s1w r1wa ∈ run_semanticish_search s1w "1.0" ∧
    resHit s1w r1wb ∈ run_semanticish_search s1w "nan" :=
  ⟨by decide, by decide, by decide, by decide,
   (C1_search_match_iff.1 s1w "acme" p1w (by decide)).mpr (by decide),
   (C1_search_match_iff.2.1 s1w "Kickoff" n1w (by decide)).mpr (by decide),
   (C1_search_match_iff.2.2.1 s1w "1.0" r1wa (by decide)).mpr (by decide),
   (C1_search_match_iff.2.2.1 s1w "nan" r1wb (by decide)).mpr (by decide)⟩

/-- Claim C2 counterexample: the resource `r2c` was updated strictly later
than the project `p2c` (its stored `updated_at` is larger), both match
"widget", the two rows are of different kinds — yet the search returns
the project first: the resources projection does not include
`updated_at`, so resource rows always sort last. This refutes the
claim that the more recently updated row appears first regardless of
kind. -/
theorem C2_counterexample :
    ccmp p2c.updated_at.data r2c.updated_at.data = .lt ∧
    run_semanticish_search s2c "widget" = [projHit p2c, resHit s2c r2c] := by
  constructor
  · decide
  · decide

/-- Claim C2 (amended): the merged sequence is sorted by the comparator
whose primary key is the `updated_at` column of the merged frame —
which only project rows populate — descending with missing values last,
and whose secondary key is `note_date` (used only when the notes table
is nonempty); consequently every project row precedes every row lacking
`updated_at`, and for two project rows at positions `i < j` with distinct
timestamps the earlier-positioned one is strictly more recent. When the
projects table is empty no `updated_at` column exists and no sorting
happens at all. -/
theorem C2_amended_ordering :
    (∀ (s : Store) (q : String), s.projects ≠ [] →
      (run_semanticish_search s q).Pairwise
        (fun a b => leB (!s.notes.isEmpty) a b = true)) ∧
    (∀ (s : Store) (q : String) (i j : Nat) (h₁ h₂ : Hit) (u₁ u₂ : String),
      i < j → (run_semanticish_search s q)[i]? = some h₁ →
      (run_semanticish_search s q)[j]? = some h₂ →
      h₁.updatedAt = some u₁ → h₂.updatedAt = some u₂ → u₁ ≠ u₂ →
      ccmp u₁.data u₂.data = .gt) ∧
    (∀ (s : Store) (q : String) (i j : Nat) (h₁ h₂ : Hit) (u₂ : String),
      i < j → (run_semanticish_search s q)[i]? = some h₁ →
      (run_semanticish_search s q)[j]? = some h₂ →
      h₂.updatedAt = some u₂ → h₁.updatedAt.isSome = true) ∧
    (∀ (s : Store) (q : String), s.projects = [] →
      run_semanticish_search s q = concatHits s q) := by
  have hsorted : ∀ (s : Store) (q : String), s.projects ≠ [] →
      (run_semanticish_search s q).Pairwise
        (fun a b => leB (!s.notes.isEmpty) a b = true) := by
    intro s q hne
    have he : s.projects.isEmpty = false := by
      cases hp : s.projects with
      | nil => exact absurd hp hne
      | cons x xs => rfl
    unfold run_semanticish_search
    rw [he]
    show (sortHits (!s.notes.isEmpty) (concatHits s q)).Pairwise _
    exact sortHits_pairwise _ _
  refine ⟨hsorted, ?_, ?_, ?_⟩
  · intro s q i j h₁ h₂ u₁ u₂ hij hg₁ hg₂ hu₁ hu₂ hne
    have hm₁ : h₁ ∈ run_semanticish_search s q := List.getElem?_mem hg₁
    have hm₁' : h₁ ∈ concatHits s q := mem_run_search.mp hm₁
    rcases updatedAt_some_of_mem hm₁' hu₁ with ⟨p, hp, _⟩
    have hpne : s.projects ≠ [] := by
      intro hnil
      rw [hnil] at hp
      exact absurd hp (by simp)
    have hle := pairwise_apply (hsorted s q hpne) hij hg₁ hg₂
    have hcm : hcmp (!s.notes.isEmpty) h₁ h₂ ≠ .gt := leB_true_iff.mp hle
    have hocmp : ocmp h₁.updatedAt h₂.updatedAt ≠ .gt := by
      intro hg
      exact hcm (by simp [hcmp, hg])
    rw [hu₁, hu₂] at hocmp
    have hocmp' : ccmp u₂.data u₁.data ≠ .gt := hocmp
    cases hc : ccmp u₁.data u₂.data with
    | gt => rfl
    | eq => exact absurd (strExt (ccmp_eq_iff.mp hc)) hne
    | lt =>
      have hs := ccmp_swap u₁.data u₂.data
      rw [hc] at hs
      exact absurd hs.symm hocmp'
  · intro s q i j h₁ h₂ u₂ hij hg₁ hg₂ hu₂
    have hm₂ : h₂ ∈ run_semanticish_search s q := List.getElem?_mem hg₂
    have hm₂' : h₂ ∈ concatHits s q := mem_run_search.mp hm₂
    rcases updatedAt_some_of_mem hm₂' hu₂ with ⟨p, hp, _⟩
    have hpne : s.projects ≠ [] := by
      intro hnil
      rw [hnil] at hp
      exact absurd hp (by simp)
    have hle := pairwise_apply (hsorted s q hpne) hij hg₁ hg₂
    have hcm : hcmp (!s.notes.isEmpty) h₁ h₂ ≠ .gt := leB_true_iff.mp hle
    cases hu₁ : h₁.updatedAt with
    | some u₁ => rfl
    | none =>
      exfalso
      apply hcm
      have hg : ocmp h₁.updatedAt h₂.updatedAt = .gt := by
        rw [hu₁, hu₂]
        rfl
      simp [hcmp, hg]
  · intro s q he
    unfold run_semanticish_search
    rw [show s.projects.isEmpty = true by simp [he]]
    rfl

/-- Claim C2 witness: in the two-project store `s2w` the search output is
sorted, and applying the recency conjunct at positions 0 and 1 shows
the first row's timestamp is strictly greater. -/
theorem C2_amended_ordering_witness :
    (run_semanticish_search s2w "widget").Pairwise
      (fun a b => leB (!s2w.notes.isEmpty) a b = true) ∧
    ccmp p2w1.updated_at.data p2w2.updated_at.data = .gt :=
  ⟨C2_amended_ordering.1 s2w "widget" (by decide),
   C2_amended_ordering.2.1 s2w "widget" 0 1 (projHit p2w1) (projHit p2w2)
     p2w1.updated_at p2w2.updated_at (by decide) (by decide) (by decide)
     rfl rfl (by decide)⟩

/-- Claim C3 counterexample: in the scenario store (Case "Acme Portal"
plus its Note), `search("acme")` returns two results, not exactly one:
the note also matches because the joined `project_title` column "Acme
Portal" is part of its haystack. -/
theorem C3_counterexample :
    (run_semanticish_search s3c "acme").length = 2 ∧
    run_semanticish_search s3c "acme" = [projHit p3c, noteHit s3c n3c] := by
  constructor
  · decide
  · decide

/-- Claim C3 (amended): in the scenario store, `search("acme")` returns
exactly two results — the Case tagged `project` first, then its Note
tagged `note`, which matches through the joined `project_title`; and
`search("kickoff")` returns exactly one result, tagged `note`, whose
`project_title` is "Acme Portal". -/
theorem C3_amended_scenario :
    run_semanticish_search s3c "acme" = [projHit p3c, noteHit s3c n3c] ∧
    (projHit p3c).kind = Kind.project ∧
    (noteHit s3c n3c).kind = Kind.note ∧
    run_semanticish_search s3c "kickoff" = [noteHit s3c n3c] ∧
    (noteHit s3c n3c).ptitle = Value.vStr "Acme Portal" := by
  refine ⟨by decide, rfl, rfl, by decide, by decide⟩

/-- Claim C4 counterexample: on a store holding one project, the
whitespace-only query `" "` is not intercepted by the `if q:` guard and
reaches the substring search, where it matches the space-joined haystack
of every row — the result is nonempty, refuting the claim that every
whitespace-only query yields an empty result sequence. -/
theorem C4_counterexample :
    dashboard_search s4c " " = [projHit p4c] ∧
    dashboard_search s4c " " ≠ [] := by
  constructor
  · decide
  · decide

/-- Claim C4 (amended): only the empty string is intercepted by the
dashboard guard (Python string truthiness), and it yields an empty
result sequence for every store; a whitespace-only query runs the
search, and the single-space query matches every row of every kind,
because each projection has at least two columns and the haystack joins
them with a space. -/
theorem C4_amended_empty_guard :
    (∀ s : Store, dashboard_search s "" = []) ∧
    (∀ (s : Store) (p : Project), p ∈ s.projects →
      projHit p ∈ dashboard_search s " ") ∧
    (∀ (s : Store) (n : Note), n ∈ s.notes →
      noteHit s n ∈ dashboard_search s " ") ∧
    (∀ (s : Store) (r : SResource), r ∈ s.resources →
      resHit s r ∈ dashboard_search s " ") ∧
    (∀ (s : Store) (i : Idea), i ∈ s.ideas →
      ideaHit s i ∈ dashboard_search s " ") := by
  have hsp : lowerStr " " = " " := by decide
  have hguard : ∀ s : Store, dashboard_search s " " = run_semanticish_search s " " := by
    intro s
    unfold dashboard_search
    rw [if_neg (by decide)]
  refine ⟨fun s => rfl, ?_, ?_, ?_, ?_⟩
  · intro s p hp
    rw [hguard]
    rw [projHit_mem_search_iff hp, hsp]
    exact space_matchB _ _ _
  · intro s n hn
    rw [hguard]
    rw [noteHit_mem_search_iff hn, hsp]
    exact space_matchB _ _ _
  · intro s r hr
    rw [hguard]
    rw [resHit_mem_search_iff hr, hsp]
    exact space_matchB _ _ _
  · intro s i hi
    rw [hguard]
    rw [ideaHit_mem_search_iff hi, hsp]
    exact space_matchB _ _ _

/-- Claim C4 witness: the guard returns nothing for the empty query on the
concrete store, and the single-space query returns its project row. -/
theorem C4_amended_empty_guard_witness :
    dashboard_search s4c "" = [] ∧
    p4c ∈ s4c.projects ∧ projHit p4c ∈ dashboard_search s4c " " :=
  ⟨C4_amended_empty_guard.1 s4c, by decide,
   C4_amended_empty_guard.2.1 s4c p4c (by decide)⟩

/-- Claim C5 counterexample: the two notes match, have identical (missing)
`updated_at` in the merged frame, and stand in the order `n5a`, `n5b` in
the pre-sort concatenation — but the output reverses them, because ties
on `updated_at` are broken by `note_date` descending. This refutes the
claim that rows with identical `updated_at` keep their concatenation
order. -/
theorem C5_counterexample :
    (noteHit s5c n5a).updatedAt = (noteHit s5c n5b).updatedAt ∧
    concatHits s5c "alpha" = [noteHit s5c n5a, noteHit s5c n5b] ∧
    run_semanticish_search s5c "alpha" =
      [noteHit s5c n5b, noteHit s5c n5a] := by
  refine ⟨rfl, by decide, by decide⟩

/-- Claim C5 (amended): wherever the program pins the tie order down — the
multi-key sort used whenever the notes table is nonempty (pandas' stable
lexsort), and the no-sort path taken when the projects table is empty —
the merge-and-sort step is stable up to the full sort key (`updated_at`
together with `note_date`): for every key value, the subsequence of
output rows with that key equals the subsequence of the pre-sort
concatenation (kinds in the fixed order project, note, resource, idea)
with that key. Rows with identical `updated_at` but different
`note_date` keys are reordered by `note_date` descending; in the
remaining case (projects nonempty, notes empty) pandas sorts the single
`updated_at` column with its default `quicksort` and guarantees no tie
order, so nothing is claimed there. -/
theorem C5_amended_stability :
    ∀ (s : Store) (q : String) (k : Option String × Option String),
      s.notes ≠ [] ∨ s.projects = [] →
      (run_semanticish_search s q).filter
        (fun h => decide (hkey (!s.notes.isEmpty) h = k)) =
      (concatHits s q).filter
        (fun h => decide (hkey (!s.notes.isEmpty) h = k)) := by
  intro s q k _guar
  unfold run_semanticish_search
  by_cases he : s.projects.isEmpty
  · rw [if_pos he]
  · rw [if_neg he]
    exact filter_sortHits _ _ _

/-- Claim C5 witness: the counterexample store has a nonempty notes table
(the guaranteed, multi-key lexsort case), and there the output rows with
the key of note `n5a` are exactly its pre-sort occurrences. -/
theorem C5_amended_stability_witness :
    (s5c.notes ≠ [] ∨ s5c.projects = []) ∧
    (run_semanticish_search s5c "alpha").filter
      (fun h => decide (hkey (!s5c.notes.isEmpty) h =
        ((none, some "2024-01-01") : Option String × Option String))) =
    (concatHits s5c "alpha").filter
      (fun h => decide (hkey (!s5c.notes.isEmpty) h =
        ((none, some "2024-01-01") : Option String × Option String))) :=
  ⟨Or.inl (by decide),
   C5_amended_stability s5c "alpha"
     ((none, some "2024-01-01") : Option String × Option String)
     (Or.inl (by decide))⟩

/-- Claim C6: for every note, resource or idea row whose owning case
exists (the left join finds the project with the matching id), the
owning case's title is part of the row's haystack, so a query that is a
substring of the lowered title returns the child row — regardless of the
child's own fields. -/
theorem C6_join_title_match :
    (∀ (s : Store) (q : String) (n : Note) (p : Project),
      n ∈ s.notes →
      s.projects.find? (fun pr => pr.id == n.project_id) = some p →
      isSub (lowerStr q) (lowerStr p.title) = true →
      noteHit s n ∈ run_semanticish_search s q) ∧
    (∀ (s : Store) (q : String) (r : SResource) (p : Project) (pid : Int),
      r ∈ s.resources → r.project_id = some pid →
      s.projects.find? (fun pr => pr.id == pid) = some p →
      isSub (lowerStr q) (lowerStr p.title) = true →
      resHit s r ∈ run_semanticish_search s q) ∧
    (∀ (s : Store) (q : String) (i : Idea) (p : Project) (pid : Int),
      i ∈ s.ideas → i.project_id = some pid →
      s.projects.find? (fun pr => pr.id == pid) = some p →
      isSub (lowerStr q) (lowerStr p.title) = true →
      ideaHit s i ∈ run_semanticish_search s q) := by
  refine ⟨?_, ?_, ?_⟩
  · intro s q n p hn hfind hq
    rw [noteHit_mem_search_iff hn]
    have hj : joinTitle s (some n.project_id) = Value.vStr p.title := by
      simp [joinTitle, hfind]
    apply matchB_of_elem (v := Value.vStr p.title)
    · rw [← hj]
      simp [noteVals]
    · exact hq
  · intro s q r p pid hr hpid hfind hq
    rw [resHit_mem_search_iff hr]
    have hj : joinTitle s r.project_id = Value.vStr p.title := by
      rw [hpid]
      simp [joinTitle, hfind]
    apply matchB_of_elem (v := Value.vStr p.title)
    · rw [← hj]
      simp [resVals]
    · exact hq
  · intro s q i p pid hi hpid hfind hq
    rw [ideaHit_mem_search_iff hi]
    have hj : joinTitle s i.project_id = Value.vStr p.title := by
      rw [hpid]
      simp [joinTitle, hfind]
    apply matchB_of_elem (v := Value.vStr p.title)
    · rw [← hj]
      simp [ideaVals]
    · exact hq

/-- Claim C6 witness: the resource `r6w` mentions "portal" nowhere in its
own fields, yet `search("portal")` returns it through the joined title
of its owning case "Acme Portal". -/
theorem C6_join_title_match_witness :
    r6w ∈ s6w.resources ∧ r6w.project_id = some 1 ∧
    s6w.projects.find? (fun pr => pr.id == 1) = some p6w ∧
    resHit s6w r6w ∈ run_semanticish_search s6w "portal" :=
  ⟨by decide, rfl, by decide,
   C6_join_title_match.2.1 s6w "portal" r6w p6w 1 (by decide) rfl (by decide)
     (by decide)⟩

/-- Claim C7: updating by an id that matches no row leaves the store
unchanged and is not an error (the operation is total and returns the
store); updating an existing id rewrites that row with the nine named
fields overwritten and `updated_at` refreshed, while `id` and
`created_at` are preserved and the other three tables are untouched. -/
theorem C7_update_semantics :
    (∀ (s : Store) (pid : Int) (f : ProjectPatch) (now : String),
      (∀ p ∈ s.projects, p.id ≠ pid) → update_project s pid f now = s) ∧
    (∀ (s : Store) (pid : Int) (f : ProjectPatch) (now : String)
      (p : Project), p ∈ s.projects → p.id = pid →
      applyPatch p f now ∈ (update_project s pid f now).projects) ∧
    (∀ (s : Store) (pid : Int) (f : ProjectPatch) (now : String),
      (update_project s pid f now).notes = s.notes ∧
      (update_project s pid f now).resources = s.resources ∧
      (update_project s pid f now).ideas = s.ideas) ∧
    (∀ (p : Project) (f : ProjectPatch) (now : String),
      (applyPatch p f now).updated_at = now ∧
      (applyPatch p f now).title = f.title ∧
      (applyPatch p f now).status = f.status ∧
      (applyPatch p f now).archived = f.archived ∧
      (applyPatch p f now).id = p.id ∧
      (applyPatch p f now).created_at = p.created_at) := by
  refine ⟨?_, ?_, fun s pid f now => ⟨rfl, rfl, rfl⟩,
    fun p f now => ⟨rfl, rfl, rfl, rfl, rfl, rfl⟩⟩
  · intro s pid f now hall
    unfold update_project
    have hm : s.projects.map
        (fun p => if p.id = pid then applyPatch p f now else p) = s.projects :=
      map_id_of_eq (fun p hp => if_neg (hall p hp))
    rw [hm]
  · intro s pid f now p hp hid
    unfold update_project
    have hmem : (if p.id = pid then applyPatch p f now else p) ∈
        s.projects.map (fun p => if p.id = pid then applyPatch p f now else p) :=
      List.mem_map_of_mem (f := fun p => if p.id = pid then applyPatch p f now else p) hp
    rw [if_pos hid] at hmem
    exact hmem

/-- Claim C7 witness: updating id 2 in a store whose only project has id 1
changes nothing, and updating id 1 stores the patched row. -/
theorem C7_update_semantics_witness :
    (∀ p ∈ s7w.projects, p.id ≠ 2) ∧
    update_project s7w 2 f7w "2024-03-01T00:00:00" = s7w ∧
    p7w ∈ s7w.projects ∧
    applyPatch p7w f7w "2024-03-01T00:00:00" ∈
      (update_project s7w 1 f7w "2024-03-01T00:00:00").projects :=
  ⟨by decide, C7_update_semantics.1 s7w 2 f7w "2024-03-01T00:00:00" (by decide),
   by decide,
   C7_update_semantics.2.1 s7w 1 f7w "2024-03-01T00:00:00" p7w (by decide) rfl⟩

/-- Claim C8: after the reset (drop all four tables, then `init_db`),
every table exists and is empty, and each of the four inserts behaves on
the reset store exactly as on a freshly created store — in particular it
succeeds. -/
theorem C8_reset_semantics :
    (∀ d : DB, (reset_db d).projects = some [] ∧ (reset_db d).notes = some [] ∧
      (reset_db d).resources = some [] ∧ (reset_db d).ideas = some []) ∧
    (∀ (d : DB) (r : Project),
      insert_project_db (reset_db d) r = insert_project_db fresh_db r ∧
      (insert_project_db (reset_db d) r).isSome = true) ∧
    (∀ (d : DB) (r : Note),
      insert_note_db (reset_db d) r = insert_note_db fresh_db r ∧
      (insert_note_db (reset_db d) r).isSome = true) ∧
    (∀ (d : DB) (r : SResource),
      insert_resource_db (reset_db d) r = insert_resource_db fresh_db r ∧
      (insert_resource_db (reset_db d) r).isSome = true) ∧
    (∀ (d : DB) (r : Idea),
      insert_idea_db (reset_db d) r = insert_idea_db fresh_db r ∧
      (insert_idea_db (reset_db d) r).isSome = true) :=
  ⟨fun _ => ⟨rfl, rfl, rfl, rfl⟩, fun _ _ => ⟨rfl, rfl⟩, fun _ _ => ⟨rfl, rfl⟩,
   fun _ _ => ⟨rfl, rfl⟩, fun _ _ => ⟨rfl, rfl⟩⟩

/-- Claim C9: `init_db` is idempotent — a second run is a no-op — and it
loses no rows: every existing table keeps exactly its rows, and after a
run all four tables exist (each table is a single object, so no
duplicate can be created). -/
theorem C9_init_idempotent :
    (∀ d : DB, init_db (init_db d) = init_db d) ∧
    (∀ (d : DB) (l : List Project), d.projects = some l →
      (init_db d).projects = some l) ∧
    (∀ (d : DB) (l : List Note), d.notes = some l →
      (init_db d).notes = some l) ∧
    (∀ (d : DB) (l : List SResource), d.resources = some l →
      (init_db d).resources = some l) ∧
    (∀ (d : DB) (l : List Idea), d.ideas = some l →
      (init_db d).ideas = some l) ∧
    (∀ d : DB, ((init_db d).projects).isSome = true ∧
      ((init_db d).notes).isSome = true ∧
      ((init_db d).resources).isSome = true ∧
      ((init_db d).ideas).isSome = true) := by
  have hidem : ∀ {α : Type} (t : Option (List α)),
      ensure_table (ensure_table t) = ensure_table t := by
    intro α t
    cases t <;> rfl
  have hkeep : ∀ {α : Type} {t : Option (List α)} {l : List α},
      t = some l → ensure_table t = some l := by
    intro α t l h
    rw [h]
    rfl
  have hsome : ∀ {α : Type} (t : Option (List α)),
      (ensure_table t).isSome = true := by
    intro α t
    cases t <;> rfl
  refine ⟨?_, ?_, ?_, ?_, ?_, ?_⟩
  · intro d
    show init_db ⟨ensure_table d.projects, ensure_table d.notes,
      ensure_table d.resources, ensure_table d.ideas⟩ = _
    unfold init_db
    simp only [hidem]
  · intro d l h
    exact hkeep h
  · intro d l h
    exact hkeep h
  · intro d l h
    exact hkeep h
  · intro d l h
    exact hkeep h
  · intro d
    exact ⟨hsome _, hsome _, hsome _, hsome _⟩

/-- Claim C9 witness: re-initializing the database `d9w` (a projects table
with one row, an empty notes table, two missing tables) is a no-op the
second time, and the existing project row survives initialization. -/
theorem C9_init_idempotent_witness :
    init_db (init_db d9w) = init_db d9w ∧
    d9w.projects = some [p9w] ∧
    (init_db d9w).projects = some [p9w] :=
  ⟨C9_init_idempotent.1 d9w, rfl, C9_init_idempotent.2.1 d9w [p9w] rfl⟩

/-- Claim C10: the stored upload path is relative and is the uploads
directory joined with `<prefix><stamp>-<sanitized original name>` for
the two prefixes the application uses; sanitization maps every character
into the class `[A-Za-z0-9._-]`, replacing each character outside the
class with an underscore and keeping the rest in place; and multiple
files uploaded to one Resource record are joined with `";"` into the
single `local_path` value, which is `NULL` without uploads. -/
theorem C10_upload_paths :
    (∀ stamp fname : String,
      save_uploaded_file_rel "res-" stamp fname =
        UPLOAD_DIR ++ "/" ++ "res-" ++ stamp ++ "-" ++ sanitize_filename fname ∧
      save_uploaded_file_rel "idea-" stamp fname =
        UPLOAD_DIR ++ "/" ++ "idea-" ++ stamp ++ "-" ++ sanitize_filename fname) ∧
    (∀ stamp fname : String,
      (save_uploaded_file_rel "res-" stamp fname).data.head? = some 'u' ∧
      (save_uploaded_file_rel "idea-" stamp fname).data.head? = some 'u') ∧
    (∀ (fname : String) (c : Char), c ∈ (sanitize_filename fname).data →
      is_safe_char c = true) ∧
    (∀ (fname : String) (i : Nat) (c c' : Char),
      fname.data[i]? = some c →
      (sanitize_filename fname).data[i]? = some c' →
      c' = if is_safe_char c then c else '_') ∧
    (∀ paths : List String, paths ≠ [] →
      resource_local_path paths = some (joinSemi paths)) ∧
    (∀ a b : String, resource_local_path [a, b] = some (a ++ ";" ++ b)) ∧
    resource_local_path [] = none := by
  have hres : ∀ stamp fname : String,
      ("res-" ++ stamp ++ "-" ++ sanitize_filename fname).data.head? =
        some 'r' := by
    intro stamp fname
    have hr : ("res-").data = ['r', 'e', 's', '-'] := rfl
    simp [String.data_append, hr]
  have hidea : ∀ stamp fname : String,
      ("idea-" ++ stamp ++ "-" ++ sanitize_filename fname).data.head? =
        some 'i' := by
    intro stamp fname
    have hr : ("idea-").data = ['i', 'd', 'e', 'a', '-'] := rfl
    simp [String.data_append, hr]
  have hjoin : ∀ stamp fname pre : String,
      (pre ++ stamp ++ "-" ++ sanitize_filename fname).data.head? ≠ some '/' →
      save_uploaded_file_rel pre stamp fname =
        UPLOAD_DIR ++ "/" ++ pre ++ stamp ++ "-" ++ sanitize_filename fname := by
    intro stamp fname pre hne
    unfold save_uploaded_file_rel os_path_join
    rw [if_neg hne]
    apply strExt
    simp [String.data_append, List.append_assoc]
  refine ⟨?_, ?_, ?_, ?_, ?_, fun a b => rfl, rfl⟩
  · intro stamp fname
    constructor
    · exact hjoin stamp fname "res-" (by rw [hres]; simp)
    · exact hjoin stamp fname "idea-" (by rw [hidea]; simp)
  · intro stamp fname
    constructor
    · rw [hjoin stamp fname "res-" (by rw [hres]; simp)]
      have hu : (UPLOAD_DIR ++ "/" ++ "res-").data =
          'u' :: "ploads/res-".data := rfl
      show ((UPLOAD_DIR ++ "/" ++ "res-") ++ stamp ++ "-" ++
        sanitize_filename fname).data.head? = some 'u'
      simp [String.data_append, hu]
    · rw [hjoin stamp fname "idea-" (by rw [hidea]; simp)]
      have hu : (UPLOAD_DIR ++ "/" ++ "idea-").data =
          'u' :: "ploads/idea-".data := rfl
      show ((UPLOAD_DIR ++ "/" ++ "idea-") ++ stamp ++ "-" ++
        sanitize_filename fname).data.head? = some 'u'
      simp [String.data_append, hu]
  · intro fname c hc
    have hc' : c ∈ fname.data.map (fun a => if is_safe_char a then a else '_') := hc
    rcases List.mem_map.mp hc' with ⟨a, _, ha⟩
    by_cases hs : is_safe_char a = true
    · rw [if_pos hs] at ha
      rw [← ha]
      exact hs
    · rw [if_neg hs] at ha
      rw [← ha]
      decide
  · intro fname i c c' h1 h2
    have h2' : (fname.data.map
        (fun a => if is_safe_char a then a else '_'))[i]? = some c' := h2
    rw [List.getElem?_map, h1] at h2'
    exact (Option.some.injEq .. ▸ h2').symm
  · intro paths hne
    cases paths with
    | nil => exact absurd rfl hne
    | cons x xs => rfl

/-- Claim C10 witness: the filename `my file(1).png` has the space at
index 2 replaced by an underscore, sanitizes to `my_file_1_.png`, and the
full stored path for a `res-`-prefixed upload is the expected relative
path under `uploads/`. -/
theorem C10_upload_paths_witness :
    ("my file(1).png").data[2]? = some ' ' ∧
    (sanitize_filename "my file(1).png").data[2]? = some '_' ∧
    ('_' = if is_safe_char ' ' then ' ' else '_') ∧
    sanitize_filename "my file(1).png" = "my_file_1_.png" ∧
    save_uploaded_file_rel "res-" "20240101-000000" "my file(1).png" =
      "uploads/res-20240101-000000-my_file_1_.png" :=
  ⟨by decide, by decide,
   C10_upload_paths.2.2.2.1 "my file(1).png" 2 ' ' '_' (by decide) (by decide),
   by decide, by decide⟩

end Karte
